import Mathlib

/-!
Verification development for the MT5 bridge server (`server.py`).

The server keeps four in-memory stores in a global dictionary
`trading_data`: `accounts` (account id → latest reported record),
`trades` (a list, initialised empty), `commands` (a list of command
dictionaries) and `heartbeats` (account id → last report timestamp).
Four HTTP handlers operate on these stores:

  * `receive_mt5_data` (POST /api/mt5)  — report account state;
  * `get_mt5_data`     (GET  /api/mt5)  — query one account or the
    online/offline aggregate view;
  * `send_command`     (POST /api/command) — enqueue a command;
  * `get_commands`     (GET  /api/commands) — drain pending commands.

The embedding below models JSON values (`Val`), Python dictionaries as
insertion-ordered association lists, the shared store (`BridgeState`),
and each handler as a pure function from the request data, the clock
readings the handler performs, and the pre-state, to the post-state and
an HTTP outcome.  Wall-clock timestamps (`datetime.now().timestamp()`,
a float in the source) are modelled at second granularity as `Int`;
`datetime.now().isoformat()` and the `str` form of `datetime.now()` are
opaque strings supplied as inputs (the source reads the clock several
times per request, microseconds apart; the model supplies one instant
per request, which none of the verified properties distinguish).
-/

/-- A single-quote character as a string, used to build the literal
message texts of the source without a bare quote in the file. -/
def quo : String := String.singleton (Char.ofNat 39)

/-- JSON-ish values as stored and echoed by the server: the payloads are
opaque to the core, which only stores, copies and string-coerces them. -/
inductive Val where
  | str (s : String)
  | int (n : Int)
  | bool (b : Bool)
  | null
  | obj (fields : List (String × Val))
  | arr (items : List Val)
deriving Repr

mutual

/-- Python `repr` of a value, restricted to the constructors of `Val`
(string-escape corner cases are not modelled; no theorem relies on the
rendering of `obj` or `arr` values). -/
def pyRepr : Val → String
  | .str s => quo ++ s ++ quo
  | .int n => toString n
  | .bool b => cond b "True" "False"
  | .null => "None"
  | .obj fields => "\x7b" ++ String.intercalate ", " (pyReprFields fields) ++ "\x7d"
  | .arr items => "[" ++ String.intercalate ", " (pyReprItems items) ++ "]"

/-- `repr` of the key/value pairs of a dictionary. -/
def pyReprFields : List (String × Val) → List String
  | [] => []
  | (k, v) :: rest => (quo ++ k ++ quo ++ ": " ++ pyRepr v) :: pyReprFields rest

/-- `repr` of the items of a list. -/
def pyReprItems : List Val → List String
  | [] => []
  | v :: rest => pyRepr v :: pyReprItems rest

end

/-- Python `str()` of a value: identity on strings, `repr` otherwise.
This is the coercion the source applies in `str(data["account"])` and in
the f-strings that build command ids and messages. -/
def pyStr : Val → String
  | .str s => s
  | v => pyRepr v

/-- Python truthiness of a value (`if v:` / `not v`). -/
def truthy : Val → Bool
  | .str s => s ≠ ""
  | .int n => n ≠ 0
  | .bool b => b
  | .null => false
  | .obj fields => !fields.isEmpty
  | .arr items => !items.isEmpty

/-- Python `==` between a stored value and a `str` (the only equality
the source applies to payload values, in `cmd["account"] == account`):
true exactly for an equal string; no numeric or boolean value compares
equal to a string in Python. -/
def pyEqStr (v : Val) (s : String) : Bool :=
  match v with
  | .str t => t == s
  | _ => false

/-- Lookup in an insertion-ordered association list (Python `d[k]` /
`d.get(k)`): the value at the first (for a Python dict, only)
occurrence of the key. -/
def alGet? (d : List (String × α)) (k : String) : Option α :=
  match d with
  | [] => none
  | (k₂, v) :: rest => if k₂ = k then some v else alGet? rest k

/-- Lookup with a default (Python `d.get(k, dflt)`). -/
def alGetD (d : List (String × α)) (k : String) (dflt : α) : α :=
  (alGet? d k).getD dflt

/-- Update in an insertion-ordered association list (Python
`d[k] = v`): replace the value at the first occurrence of the key,
keeping its position, or append a new pair.  This is exactly the
insertion-order semantics of a Python dict. -/
def alSet (d : List (String × α)) (k : String) (v : α) : List (String × α) :=
  match d with
  | [] => [(k, v)]
  | (k₂, v₂) :: rest => if k₂ = k then (k, v) :: rest else (k₂, v₂) :: alSet rest k v

/-- Insert a sequence of pairs in order (Python `**d` splat inside a
dict literal). -/
def alSets (d : List (String × α)) (ps : List (String × α)) : List (String × α) :=
  ps.foldl (fun acc p => alSet acc p.1 p.2) d

/-- A Python dictionary holding JSON values. -/
abbrev Dict := List (String × Val)

/-- An HTTP error outcome: status code and detail string, as carried by
a raised `HTTPException`. -/
structure HError where
  status : Nat
  detail : String
deriving Repr, DecidableEq

/-- The catch-all `except Exception as e: raise HTTPException(500, str(e))`
wrapped around every handler body.  `fastapi.HTTPException` subclasses
`Exception`, so the handlers' own 400/404 exceptions are caught here and
re-raised with status 500 and detail `str(e)`, which starlette renders
as `f"\x7bstatus_code\x7d: \x7bdetail\x7d"`. -/
def wrapExc (e : HError) : HError :=
  ⟨500, toString e.status ++ ": " ++ e.detail⟩

/-- The detail text `f"Missing '\x7bfield\x7d' field"` of the validation
errors in `receive_mt5_data` and `send_command`. -/
def missingFieldMsg (field : String) : String :=
  "Missing " ++ quo ++ field ++ quo ++ " field"

/-- The shared in-memory store `trading_data`. -/
structure BridgeState where
  accounts : List (String × Dict)
  trades : List Dict
  commands : List Dict
  heartbeats : List (String × Int)
deriving Repr

/-- The initial store: all four sub-stores empty. -/
def initState : BridgeState :=
  { accounts := [], trades := [], commands := [], heartbeats := [] }

/-- The record stored for an account by `receive_mt5_data`:
`\x7b**data, "last_update": iso, "server_timestamp": ts\x7d` — the
request body's pairs in order, then the two server-set fields,
overriding a body field of the same name. -/
def mkAccountRecord (body : Dict) (nowIso : String) (nowTs : Int) : Dict :=
  alSet (alSet (alSets [] body) "last_update" (.str nowIso)) "server_timestamp" (.int nowTs)

/-- `receive_mt5_data` (POST /api/mt5): validate presence of `account`,
coerce it with `str()`, replace the account record wholesale, update the
heartbeat, and answer with a success envelope.  The result pairs the
post-state with the HTTP outcome; on error the store is unchanged. -/
def receiveMt5Data (body : Dict) (nowIso : String) (nowTs : Int) (st : BridgeState) :
    BridgeState × Except HError Dict :=
  match alGet? body "account" with
  | none => (st, .error (wrapExc ⟨400, missingFieldMsg "account"⟩))
  | some acc =>
    let accountId := pyStr acc
    let st₂ := { st with
      accounts := alSet st.accounts accountId (mkAccountRecord body nowIso nowTs),
      heartbeats := alSet st.heartbeats accountId nowTs }
    (st₂, .ok [("status", .str "success"), ("account", .str accountId),
               ("received_at", .str nowIso),
               ("message", .str "Data received successfully")])

/-- Stand-in for `hashlib.md5(s.encode()).hexdigest()[:8]` from
`send_command`.  The development relies only on this being a
deterministic function of its input string — the one property of MD5
the verified and refuted behaviours depend on. -/
def md5hex8 (s : String) : String :=
  let h := s.foldl (fun a c => (a * 131 + c.toNat) % 4294967296) 5381
  ((Nat.toDigits 16 h).take 8).asString

/-- The command id `hashlib.md5(f"\x7baccount\x7d\x7bdatetime.now()\x7d".encode()).hexdigest()[:8]`:
a deterministic function of the `str` form of the body's account value
and of the clock reading. -/
def cmdIdOf (account : Val) (nowRepr : String) : String :=
  md5hex8 (pyStr account ++ nowRepr)

/-- The command dictionary built by `send_command`:
`\x7b"id": cmd_id, **data, "created_at": iso, "status": "pending", "executed": False\x7d`.
A body key `id` overrides the generated id; the three trailing fields
override body keys of the same name. -/
def mkCommand (body : Dict) (cmdId : String) (nowIso : String) : Dict :=
  alSet (alSet (alSet (alSets [("id", Val.str cmdId)] body)
    "created_at" (.str nowIso)) "status" (.str "pending")) "executed" (.bool false)

/-- `send_command` (POST /api/command): validate presence of `account`
and `action` (in that order), build the command, append it, and pop the
oldest entry when the list exceeds 50 (`trading_data["commands"].pop(0)`). -/
def sendCommand (body : Dict) (nowIso : String) (nowRepr : String) (st : BridgeState) :
    BridgeState × Except HError Dict :=
  match alGet? body "account" with
  | none => (st, .error (wrapExc ⟨400, missingFieldMsg "account"⟩))
  | some acc =>
    match alGet? body "action" with
    | none => (st, .error (wrapExc ⟨400, missingFieldMsg "action"⟩))
    | some act =>
      let cmdId := cmdIdOf acc nowRepr
      let cs := st.commands ++ [mkCommand body cmdId nowIso]
      let cs₂ := if cs.length > 50 then cs.drop 1 else cs
      ({ st with commands := cs₂ },
       .ok [("status", .str "queued"), ("command_id", .str cmdId),
            ("message", .str ("Command " ++ quo ++ pyStr act ++ quo ++
              " queued for account " ++ pyStr acc))])

/-- The liveness check of the aggregate view:
`(datetime.now().timestamp() - heartbeat) < 300` — strict comparison,
five-minute threshold. -/
def isOnlineChk (nowTs heartbeat : Int) : Bool :=
  nowTs - heartbeat < 300

/-- One entry of the aggregate view:
`\x7b"account": acc_id, **account_data, "status": status\x7d` with
`account_data = trading_data["accounts"].get(acc_id, \x7b\x7d)`. -/
def statusEntry (accounts : List (String × Dict)) (status : String) (accId : String) : Dict :=
  alSet (alSets (alSet [] "account" (.str accId)) (alGetD accounts accId []))
    "status" (.str status)

/-- The heartbeat entries classified online.  The source builds the
online and offline lists in a single pass over
`trading_data["heartbeats"].items()`, appending each entry to exactly
one list; the resulting lists equal these two order-preserving
filters. -/
def onlinePart (nowTs : Int) (st : BridgeState) : List (String × Int) :=
  st.heartbeats.filter fun p => isOnlineChk nowTs p.2

/-- The heartbeat entries classified offline. -/
def offlinePart (nowTs : Int) (st : BridgeState) : List (String × Int) :=
  st.heartbeats.filter fun p => !isOnlineChk nowTs p.2

/-- The aggregate response of `get_mt5_data` when no account is asked
for: `\x7b"online": [...], "offline": [...], "total": len(accounts)\x7d`. -/
def aggregateView (nowTs : Int) (st : BridgeState) : Dict :=
  [("online", .arr (((onlinePart nowTs st).map fun p =>
      statusEntry st.accounts "online" p.1).map .obj)),
   ("offline", .arr (((offlinePart nowTs st).map fun p =>
      statusEntry st.accounts "offline" p.1).map .obj)),
   ("total", .int st.accounts.length)]

/-- `get_mt5_data` (GET /api/mt5): with a truthy `account` query
parameter (`if account:` — neither `None` nor the empty string), a point
lookup answering the stored record or a 404 for a missing id, which the
catch-all turns into a 500; otherwise the aggregate view.  The handler
never mutates the store, so the pre-state is returned unchanged. -/
def getMt5Data (account : Option String) (nowTs : Int) (st : BridgeState) :
    BridgeState × Except HError Dict :=
  if (match account with | some a => a ≠ "" | none => false : Bool) then
    let a := account.getD ""
    match alGet? st.accounts a with
    | some record => (st, .ok record)
    | none => (st, .error (wrapExc ⟨404, "Account " ++ a ++ " not found"⟩))
  else
    (st, .ok (aggregateView nowTs st))

/-- The selection predicate of `get_commands`:
`cmd["account"] == account and not cmd["executed"]`.  Commands built by
`send_command` always carry both keys; on a dictionary missing one the
source would raise `KeyError` (folded to `false` here, a case no
reachable command exhibits). -/
def isPendingFor (target : String) (c : Dict) : Bool :=
  (match alGet? c "account" with
   | some v => pyEqStr v target
   | none => false) &&
  (match alGet? c "executed" with
   | some v => !truthy v
   | none => false)

/-- The in-place delivery marking of `get_commands`:
`cmd["executed"] = True; cmd["executed_at"] = datetime.now().isoformat()`. -/
def markExecuted (nowIso : String) (c : Dict) : Dict :=
  alSet (alSet c "executed" (.bool true)) "executed_at" (.str nowIso)

/-- `get_commands` (GET /api/commands): reject a falsy `account`
parameter, select the pending commands addressed to it, mark each
executed with a delivery timestamp (mutating the stored dictionaries),
and answer with the marked commands.  The source mutates the selected
dictionaries in place before returning the self-same objects, so the
store holds every command — marked where selected — and the response
lists exactly the marked selection, in queue (creation) order. -/
def getCommands (account : String) (nowIso : String) (st : BridgeState) :
    BridgeState × Except HError Dict :=
  if account = "" then
    (st, .error (wrapExc ⟨400, "Missing " ++ quo ++ "account" ++ quo ++ " parameter"⟩))
  else
    let delivered := (st.commands.filter (isPendingFor account)).map (markExecuted nowIso)
    let cs := st.commands.map fun c =>
      if isPendingFor account c then markExecuted nowIso c else c
    ({ st with commands := cs },
     .ok [("account", .str account), ("pending_count", .int delivered.length),
          ("commands", .arr (delivered.map .obj))])

/-!
### Concrete fixtures

Small request bodies and store states used to instantiate the theorems
below on concrete inputs.
-/

/-- A report body for account `A1` with balance 1000. -/
def bodyBal1 : Dict := [("account", Val.str "A1"), ("balance", Val.int 1000)]

/-- A second report body for account `A1` with balance 2000. -/
def bodyBal2 : Dict := [("account", Val.str "A1"), ("balance", Val.int 2000)]

/-- A report body whose account value is the number `123`. -/
def bodyIntAcc : Dict := [("account", Val.int 123), ("balance", Val.int 7)]

/-- A report body whose account value is the string `"123"`. -/
def bodyStrAcc : Dict := [("account", Val.str "123"), ("equity", Val.int 8)]

/-- A report body with no `account` field at all. -/
def bodyNoAcc : Dict := [("balance", Val.int 1)]

/-- A report body whose `account` field is the empty string. -/
def bodyEmptyAcc : Dict := [("account", Val.str "")]

/-- A report body carrying an embedded trade sub-object. -/
def bodyTrade : Dict :=
  [("account", Val.str "A1"),
   ("trade", Val.obj [("symbol", Val.str "EURUSD"), ("volume", Val.int 1)])]

/-- A command body for account `A1` with action `ping`. -/
def cmdBody : Dict := [("account", Val.str "A1"), ("action", Val.str "ping")]

/-- A command body that itself carries an `id` key. -/
def cmdBodyWithId : Dict :=
  [("account", Val.str "A1"), ("action", Val.str "ping"), ("id", Val.str "chosen")]

/-- A command body missing the `action` field. -/
def cmdBodyNoAction : Dict := [("account", Val.str "A1")]

/-- A store holding one pending command for account `A1`. -/
def drainFixture : BridgeState :=
  { initState with commands := [mkCommand cmdBody "c1" "t0"] }

/-- A store whose command queue is at the 50-entry capacity. -/
def fullQueueFixture : BridgeState :=
  { initState with commands := List.replicate 50 (mkCommand cmdBody "c0" "t0") }

/-- A store with one heartbeat just inside and one just outside the
300-second liveness window relative to `nowTs = 1000`. -/
def heartbeatFixture : BridgeState :=
  { initState with heartbeats := [("A1", 701), ("A2", 699)] }

/-!
### Association-list lemmas
-/

/-- Reading back the key just written. -/
theorem alGet?_alSet_self (d : List (String × α)) (k : String) (v : α) :
    alGet? (alSet d k v) k = some v := by
  induction d with
  | nil => simp [alSet, alGet?]
  | cons p rest ih =>
    obtain ⟨k₂, v₂⟩ := p
    by_cases h : k₂ = k
    · simp [alSet, h, alGet?]
    · simp [alSet, h, alGet?, ih]

/-- Writing one key leaves every other key unchanged. -/
theorem alGet?_alSet_ne (d : List (String × α)) (k k₁ : String) (v : α) (h : k₁ ≠ k) :
    alGet? (alSet d k v) k₁ = alGet? d k₁ := by
  induction d with
  | nil => simp [alSet, alGet?, Ne.symm h]
  | cons p rest ih =>
    obtain ⟨k₂, v₂⟩ := p
    by_cases h₂ : k₂ = k
    · subst h₂
      simp [alSet, alGet?, Ne.symm h]
    · by_cases h₁ : k₂ = k₁ <;> simp [alSet, alGet?, h₂, h₁, h, ih]

/-- A key is absent exactly when lookup misses. -/
theorem alGet?_eq_none_iff (d : List (String × α)) (k : String) :
    alGet? d k = none ↔ k ∉ d.map Prod.fst := by
  induction d with
  | nil => simp [alGet?]
  | cons p rest ih =>
    obtain ⟨k₂, v₂⟩ := p
    by_cases h : k₂ = k
    · subst h
      simp [alGet?]
    · simp [alGet?, h, ih, Ne.symm h]

/-- Writing a present key keeps the key sequence. -/
theorem alSet_map_fst_of_mem (d : List (String × α)) (k : String) (v : α)
    (h : k ∈ d.map Prod.fst) : (alSet d k v).map Prod.fst = d.map Prod.fst := by
  induction d with
  | nil => simp at h
  | cons p rest ih =>
    obtain ⟨k₂, v₂⟩ := p
    by_cases h₂ : k₂ = k
    · simp [alSet, h₂]
    · rw [List.map_cons] at h
      rcases List.mem_cons.mp h with h₁ | h₁
    

      · exact absurd h₁.symm h₂
      · simp [alSet, h₂, ih h₁]

/-- Writing an absent key appends it to the key sequence. -/
theorem alSet_map_fst_of_not_mem (d : List (String × α)) (k : String) (v : α)
    (h : k ∉ d.map Prod.fst) : (alSet d k v).map Prod.fst = d.map Prod.fst ++ [k] := by
  induction d with
  | nil => simp [alSet]
  | cons p rest ih =>
    obtain ⟨k₂, v₂⟩ := p
    rw [List.map_cons] at h
    have h₁ : ¬k₂ = k := fun e => h (by simp [e])
    have h₂ : k ∉ List.map Prod.fst rest := fun hm => h (List.mem_cons_of_mem _ hm)
    simp [alSet, h₁, ih h₂]

/-- Writing a present key keeps the length. -/
theorem alSet_length_of_mem (d : List (String × α)) (k : String) (v : α)
    (h : k ∈ d.map Prod.fst) : (alSet d k v).length = d.length := by
  induction d with
  | nil => simp at h
  | cons p rest ih =>
    obtain ⟨k₂, v₂⟩ := p
    by_cases h₂ : k₂ = k
    · simp [alSet, h₂]
    · rw [List.map_cons] at h
      rcases List.mem_cons.mp h with h₁ | h₁
      · exact absurd h₁.symm h₂
      · simp [alSet, h₂, ih h₁]

/-- `alSet` preserves key uniqueness. -/
theorem alSet_nodup (d : List (String × α)) (k : String) (v : α)
    (h : (d.map Prod.fst).Nodup) : ((alSet d k v).map Prod.fst).Nodup := by
  by_cases hm : k ∈ d.map Prod.fst
  · rw [alSet_map_fst_of_mem d k v hm]; exact h
  · rw [alSet_map_fst_of_not_mem d k v hm]
    refine List.Nodup.append h (List.nodup_singleton k) ?_
    intro a ha hb
    rw [List.mem_singleton] at hb
    subst hb
    exact hm ha

/-- Splatting pairs none of which uses the key leaves it unchanged. -/
theorem alGet?_alSets_not_mem (ps d : List (String × α)) (k : String)
    (h : k ∉ ps.map Prod.fst) : alGet? (alSets d ps) k = alGet? d k := by
  induction ps generalizing d with
  | nil => simp [alSets]
  | cons p rest ih =>
    rw [List.map_cons] at h
    have h₁ : ¬k = p.1 := fun e => h (by simp [e])
    have h₂ : k ∉ List.map Prod.fst rest := fun hm => h (List.mem_cons_of_mem _ hm)
    have hsets : alSets d (p :: rest) = alSets (alSet d p.1 p.2) rest := by
      simp [alSets]
    rw [hsets, ih _ h₂, alGet?_alSet_ne _ _ _ _ h₁]

/-- Splatting duplicate-free pairs stores each pair's value. -/
theorem alGet?_alSets_self (ps d : List (String × α)) (k : String) (v : α)
    (hnd : (ps.map Prod.fst).Nodup) (h : alGet? ps k = some v) :
    alGet? (alSets d ps) k = some v := by
  induction ps generalizing d with
  | nil => simp [alGet?] at h
  | cons p rest ih =>
    obtain ⟨k₂, v₂⟩ := p
    have hnd₂ := List.nodup_cons.mp (by rw [List.map_cons] at hnd; exact hnd)
    have hsets : alSets d ((k₂, v₂) :: rest) = alSets (alSet d k₂ v₂) rest := by
      simp [alSets]
    by_cases h₂ : k₂ = k
    · subst h₂
      simp [alGet?] at h
      subst h
      rw [hsets, alGet?_alSets_not_mem _ _ _ hnd₂.1, alGet?_alSet_self]
    · simp [alGet?, h₂] at h
      rw [hsets]
      exact ih _ hnd₂.2 h

/-- Mapping a function that fixes every member is the identity. -/
theorem map_self_of_fix (l : List α) (f : α → α) (h : ∀ c ∈ l, f c = c) :
    l.map f = l := by
  rw [List.map_congr_left (g := id) (by simpa using h), List.map_id]

/-!
### Drain lemmas
-/

/-- A marked command reads back as executed. -/
theorem alGet?_markExecuted_executed (iso : String) (c : Dict) :
    alGet? (markExecuted iso c) "executed" = some (.bool true) := by
  unfold markExecuted
  rw [alGet?_alSet_ne _ _ _ _ (by decide), alGet?_alSet_self]

/-- A marked command carries the delivery timestamp. -/
theorem alGet?_markExecuted_executedAt (iso : String) (c : Dict) :
    alGet? (markExecuted iso c) "executed_at" = some (.str iso) := by
  unfold markExecuted
  rw [alGet?_alSet_self]

/-- A command just marked delivered is no longer pending. -/
theorem isPendingFor_markExecuted (a iso : String) (c : Dict) :
    isPendingFor a (markExecuted iso c) = false := by
  unfold isPendingFor
  rw [alGet?_markExecuted_executed]
  simp [truthy]

/-- After a drain pass over the queue, no command of the drained account
is still pending. -/
theorem drain_clears_pending (a iso : String) (cs : List Dict) :
    (cs.map fun c => if isPendingFor a c then markExecuted iso c else c).filter
      (isPendingFor a) = [] := by
  rw [List.filter_eq_nil_iff]
  intro c hc
  rw [List.mem_map] at hc
  obtain ⟨c₀, hmem, rfl⟩ := hc
  by_cases h : isPendingFor a c₀
  · simp [h, isPendingFor_markExecuted]
  · simp [h]

/-!
### Claim theorems
-/

/-- **C1** — At-most-once delivery / drain idempotence.  For every
non-empty account `a` (the handler rejects a falsy `account` parameter
before selecting), `get_commands` answers exactly the commands stored
with `account == a` and `executed == False` (the source's encoding of
the *Pending* state), in creation (queue) order, each marked
`executed = True` (*Delivered*) with the delivery timestamp
`executed_at` before being returned; an immediately following second
drain of the same account answers the empty sequence and leaves the
store unchanged, so no pending command is returned by two drain
calls. -/
theorem drain_at_most_once (a : String) (ha : a ≠ "") (iso₁ iso₂ : String) (st : BridgeState) :
    ∃ st₂ resp,
      getCommands a iso₁ st = (st₂, .ok resp) ∧
      st₂.commands = (st.commands.map fun c =>
        if isPendingFor a c then markExecuted iso₁ c else c) ∧
      alGet? resp "commands" =
        some (.arr (((st.commands.filter (isPendingFor a)).map (markExecuted iso₁)).map .obj)) ∧
      alGet? resp "pending_count" =
        some (.int ((st.commands.filter (isPendingFor a)).length : Int)) ∧
      (∀ c ∈ (st.commands.filter (isPendingFor a)).map (markExecuted iso₁),
          alGet? c "executed" = some (.bool true) ∧
          alGet? c "executed_at" = some (.str iso₁)) ∧
      ∃ resp₂,
        getCommands a iso₂ st₂ = (st₂, .ok resp₂) ∧
        alGet? resp₂ "commands" = some (.arr []) ∧
        alGet? resp₂ "pending_count" = some (.int 0) := by
  refine ⟨{ st with commands := st.commands.map fun c =>
      if isPendingFor a c then markExecuted iso₁ c else c },
    [("account", .str a),
     ("pending_count", .int (((st.commands.filter (isPendingFor a)).map
        (markExecuted iso₁)).length : Int)),
     ("commands", .arr (((st.commands.filter (isPendingFor a)).map
        (markExecuted iso₁)).map .obj))], ?_, rfl, ?_, ?_, ?_, ?_⟩
  · simp [getCommands, ha]
  · simp [alGet?]
  · simp [alGet?]
  · intro c hc
    rw [List.mem_map] at hc
    obtain ⟨c₀, hmem, rfl⟩ := hc
    exact ⟨alGet?_markExecuted_executed iso₁ c₀, alGet?_markExecuted_executedAt iso₁ c₀⟩
  · have hclear := drain_clears_pending a iso₁ st.commands
    have hfix : ∀ c ∈ (st.commands.map fun c =>
        if isPendingFor a c then markExecuted iso₁ c else c),
        (if isPendingFor a c then markExecuted iso₂ c else c) = c := by
      intro c hc
      have := (List.filter_eq_nil_iff.mp hclear) c hc
      simp [Bool.not_eq_true] at this
      simp [this]
    refine ⟨[("account", .str a), ("pending_count", .int 0), ("commands", .arr [])], ?_, ?_, ?_⟩
    · simp only [getCommands, if_neg ha]
      rw [hclear, map_self_of_fix _ _ hfix]
      rfl
    · simp [alGet?]
    · simp [alGet?]

/-- Witness for `drain_at_most_once` at account `A1` on a store with one
pending command. -/
theorem drain_at_most_once_witness :
    ∃ st₂ resp,
      getCommands "A1" "t1" drainFixture = (st₂, .ok resp) ∧
      st₂.commands = (drainFixture.commands.map fun c =>
        if isPendingFor "A1" c then markExecuted "t1" c else c) ∧
      alGet? resp "commands" =
        some (.arr (((drainFixture.commands.filter (isPendingFor "A1")).map
          (markExecuted "t1")).map .obj)) ∧
      alGet? resp "pending_count" =
        some (.int ((drainFixture.commands.filter (isPendingFor "A1")).length : Int)) ∧
      (∀ c ∈ (drainFixture.commands.filter (isPendingFor "A1")).map (markExecuted "t1"),
          alGet? c "executed" = some (.bool true) ∧
          alGet? c "executed_at" = some (.str "t1")) ∧
      ∃ resp₂,
        getCommands "A1" "t2" st₂ = (st₂, .ok resp₂) ∧
        alGet? resp₂ "commands" = some (.arr []) ∧
        alGet? resp₂ "pending_count" = some (.int 0) :=
  drain_at_most_once "A1" (by decide) "t1" "t2" drainFixture

/-- **C2** — Bounded command queue with FIFO eviction.  For a valid
command body, `send_command` appends the new command; whenever the store
already held fewer than 50 commands the append is all that happens, and
whenever it held exactly 50 (the bound, so insertion would exceed it)
the oldest entry is popped — whatever its state or target account, since
`pop(0)` inspects neither — leaving the survivors in arrival order.  In
both cases the post-state holds at most `MAX_COMMANDS = 50` entries, so
the bound is invariant under every `send_command`. -/
theorem queue_bound_fifo (body : Dict) (acc act : Val) (iso rep : String) (st : BridgeState)
    (hacc : alGet? body "account" = some acc)
    (hact : alGet? body "action" = some act)
    (hlen : st.commands.length ≤ 50) :
    ∃ resp cs₂,
      sendCommand body iso rep st = ({ st with commands := cs₂ }, .ok resp) ∧
      cs₂.length ≤ 50 ∧
      (st.commands.length < 50 →
        cs₂ = st.commands ++ [mkCommand body (cmdIdOf acc rep) iso]) ∧
      (st.commands.length = 50 →
        cs₂ = st.commands.tail ++ [mkCommand body (cmdIdOf acc rep) iso]) := by
  rcases Nat.lt_or_ge st.commands.length 50 with hlt | hge
  · refine ⟨[("status", .str "queued"), ("command_id", .str (cmdIdOf acc rep)),
      ("message", .str ("Command " ++ quo ++ pyStr act ++ quo ++
        " queued for account " ++ pyStr acc))],
      st.commands ++ [mkCommand body (cmdIdOf acc rep) iso], ?_, ?_, fun _ => rfl, ?_⟩
    · have hno : ¬((st.commands ++ [mkCommand body (cmdIdOf acc rep) iso]).length > 50) := by
        simp [List.length_append]
        omega
      simp [sendCommand, hacc, hact, hno]
      intro h
      exact absurd h (by omega)
    · simp [List.length_append]
      omega
    · intro h
      omega
  · have heq : st.commands.length = 50 := Nat.le_antisymm hlen hge
    refine ⟨[("status", .str "queued"), ("command_id", .str (cmdIdOf acc rep)),
      ("message", .str ("Command " ++ quo ++ pyStr act ++ quo ++
        " queued for account " ++ pyStr acc))],
      st.commands.tail ++ [mkCommand body (cmdIdOf acc rep) iso], ?_, ?_, ?_,
      fun _ => rfl⟩
    · have hyes : (st.commands ++ [mkCommand body (cmdIdOf acc rep) iso]).length > 50 := by
        simp [List.length_append]
        omega
      have hdrop : (st.commands ++ [mkCommand body (cmdIdOf acc rep) iso]).drop 1 =
          st.commands.tail ++ [mkCommand body (cmdIdOf acc rep) iso] := by
        rw [List.drop_append_of_le_length (by omega), List.drop_one]
      simp [sendCommand, hacc, hact, hyes, hdrop]
      intro h
      exact absurd h (by omega)
    · simp [List.length_append, List.length_tail]
      omega
    · intro h
      omega

/-- Witness for `queue_bound_fifo` on a store already at the 50-command
capacity: the oldest entry is evicted and the bound holds. -/
theorem queue_bound_fifo_witness :
    ∃ resp cs₂,
      sendCommand cmdBody "t1" "n1" fullQueueFixture =
        ({ fullQueueFixture with commands := cs₂ }, .ok resp) ∧
      cs₂.length ≤ 50 ∧
      (fullQueueFixture.commands.length < 50 →
        cs₂ = fullQueueFixture.commands ++
          [mkCommand cmdBody (cmdIdOf (Val.str "A1") "n1") "t1"]) ∧
      (fullQueueFixture.commands.length = 50 →
        cs₂ = fullQueueFixture.commands.tail ++
          [mkCommand cmdBody (cmdIdOf (Val.str "A1") "n1") "t1"]) :=
  queue_bound_fifo cmdBody (Val.str "A1") (Val.str "ping") "t1" "n1" fullQueueFixture
    rfl rfl (by simp [fullQueueFixture])

/-- **C3** — Last-write-wins with full replacement.  After two reports
whose account values both coerce to the same valid id, the stored record
is exactly the one built from the *second* payload plus the server-set
`last_update` and `server_timestamp` fields — the first payload leaves
no trace, nothing is merged — and a point query returns exactly that
record; key uniqueness (at most one record per id) is preserved. -/
theorem last_write_wins (b₁ b₂ : Dict) (a₁ a₂ : Val)
    (h₁ : alGet? b₁ "account" = some a₁) (h₂ : alGet? b₂ "account" = some a₂)
    (hid : pyStr a₂ = pyStr a₁) (hne : pyStr a₁ ≠ "")
    (iso₁ iso₂ : String) (ts₁ ts₂ qts : Int) (st : BridgeState)
    (hnd : (st.accounts.map Prod.fst).Nodup) :
    ∃ st₁ r₁ st₂ r₂,
      receiveMt5Data b₁ iso₁ ts₁ st = (st₁, .ok r₁) ∧
      receiveMt5Data b₂ iso₂ ts₂ st₁ = (st₂, .ok r₂) ∧
      alGet? st₂.accounts (pyStr a₁) = some (mkAccountRecord b₂ iso₂ ts₂) ∧
      getMt5Data (some (pyStr a₁)) qts st₂ = (st₂, .ok (mkAccountRecord b₂ iso₂ ts₂)) ∧
      (st₂.accounts.map Prod.fst).Nodup := by
  refine ⟨{ st with
      accounts := alSet st.accounts (pyStr a₁) (mkAccountRecord b₁ iso₁ ts₁),
      heartbeats := alSet st.heartbeats (pyStr a₁) ts₁ },
    [("status", .str "success"), ("account", .str (pyStr a₁)),
     ("received_at", .str iso₁), ("message", .str "Data received successfully")],
    { st with
      accounts := alSet (alSet st.accounts (pyStr a₁) (mkAccountRecord b₁ iso₁ ts₁))
        (pyStr a₁) (mkAccountRecord b₂ iso₂ ts₂),
      heartbeats := alSet (alSet st.heartbeats (pyStr a₁) ts₁) (pyStr a₁) ts₂ },
    [("status", .str "success"), ("account", .str (pyStr a₁)),
     ("received_at", .str iso₂), ("message", .str "Data received successfully")],
    ?_, ?_, ?_, ?_, ?_⟩
  · simp [receiveMt5Data, h₁]
  · simp [receiveMt5Data, h₂, hid]
  · exact alGet?_alSet_self _ _ _
  · have hl : alGet? (alSet (alSet st.accounts (pyStr a₁) (mkAccountRecord b₁ iso₁ ts₁))
        (pyStr a₁) (mkAccountRecord b₂ iso₂ ts₂)) (pyStr a₁) =
        some (mkAccountRecord b₂ iso₂ ts₂) := alGet?_alSet_self _ _ _
    simp [getMt5Data, hne, hl]
  · exact alSet_nodup _ _ _ (alSet_nodup _ _ _ hnd)

/-- Witness for `last_write_wins`: two reports for `A1` with balances
1000 then 2000; the query answers the second record. -/
theorem last_write_wins_witness :
    ∃ st₁ r₁ st₂ r₂,
      receiveMt5Data bodyBal1 "t1" 100 initState = (st₁, .ok r₁) ∧
      receiveMt5Data bodyBal2 "t2" 200 st₁ = (st₂, .ok r₂) ∧
      alGet? st₂.accounts (pyStr (Val.str "A1")) =
        some (mkAccountRecord bodyBal2 "t2" 200) ∧
      getMt5Data (some (pyStr (Val.str "A1"))) 200 st₂ =
        (st₂, .ok (mkAccountRecord bodyBal2 "t2" 200)) ∧
      (st₂.accounts.map Prod.fst).Nodup :=
  last_write_wins bodyBal1 bodyBal2 (Val.str "A1") (Val.str "A1") rfl rfl rfl
    (by decide) "t1" "t2" 100 200 200 initState (by simp [initState])

/-- A successful lookup exhibits a member pair. -/
theorem alGet?_mem (l : List (String × α)) (id : String) (hb : α)
    (hget : alGet? l id = some hb) : (id, hb) ∈ l := by
  induction l with
  | nil => simp [alGet?] at hget
  | cons p rest ih =>
    obtain ⟨k₂, v₂⟩ := p
    by_cases h : k₂ = id
    · subst h
      simp [alGet?] at hget
      subst hget
      exact List.mem_cons_self _ _
    · simp [alGet?, h] at hget
      exact List.mem_cons_of_mem _ (ih hget)

/-- Under unique keys, the looked-up pair is the only member with that
key. -/
theorem mem_eq_of_alGet? (l : List (String × α)) (id : String) (hb : α)
    (hnd : (l.map Prod.fst).Nodup) (hget : alGet? l id = some hb) :
    ∀ q ∈ l, q.1 = id → q = (id, hb) := by
  induction l with
  | nil => intro q hq; simp at hq
  | cons p rest ih =>
    obtain ⟨k₂, v₂⟩ := p
    have hnd₂ := List.nodup_cons.mp (by rw [List.map_cons] at hnd; exact hnd)
    intro q hq hfst
    rcases List.mem_cons.mp hq with rfl | hq₂
    · simp at hfst
      subst hfst
      simp [alGet?] at hget
      subst hget
      rfl
    · by_cases h : k₂ = id
      · subst h
        have hmem : q.1 ∈ List.map Prod.fst rest := List.mem_map_of_mem Prod.fst hq₂
        rw [hfst] at hmem
        exact absurd hmem (by simpa using hnd₂.1)
      · simp [alGet?, h] at hget
        exact ih hnd₂.2 hget q hq₂ hfst

/-- An id absent from a key list is absent from any filtered key list. -/
theorem not_mem_filter_keys (l : List (String × α)) (p : String × α → Bool) (id : String)
    (h : id ∉ l.map Prod.fst) : id ∉ (l.filter p).map Prod.fst := by
  intro hm
  rw [List.mem_map] at hm
  obtain ⟨q, hq, rfl⟩ := hm
  exact h (List.mem_map_of_mem Prod.fst (List.mem_filter.mp hq).1)

/-- Under unique keys, membership of an id among the keys of a filtered
pair list is decided by the filter at that id's own entry. -/
theorem mem_filter_keys_iff (l : List (String × α)) (p : String × α → Bool)
    (id : String) (hb : α)
    (hnd : (l.map Prod.fst).Nodup) (hget : alGet? l id = some hb) :
    (id ∈ (l.filter p).map Prod.fst) ↔ p (id, hb) = true := by
  constructor
  · intro hm
    rw [List.mem_map] at hm
    obtain ⟨q, hq, rfl⟩ := hm
    obtain ⟨hql, hqp⟩ := List.mem_filter.mp hq
    rwa [mem_eq_of_alGet? l q.1 hb hnd hget q hql rfl] at hqp
  · intro hp
    exact List.mem_map_of_mem Prod.fst
      (List.mem_filter.mpr ⟨alGet?_mem l id hb hget, hp⟩)

/-- **C4** — Strict liveness boundary.  The aggregate view of
`get_mt5_data` classifies a stored heartbeat as online exactly when
`nowTs - heartbeat < 300` — strict comparison against the hard-coded
300-second threshold — so a heartbeat at `now - 300 + 1` is online and
one at `now - 300 - 1` is offline; an id with no heartbeat entry never
appears among the online ids.  (`get_mt5_data` loops over the
`heartbeats` store, which `receive_mt5_data` updates in lockstep with
`accounts`.) -/
theorem liveness_strict_boundary (st : BridgeState) (nowTs : Int) (id : String)
    (hnd : (st.heartbeats.map Prod.fst).Nodup) :
    getMt5Data none nowTs st = (st, .ok (aggregateView nowTs st)) ∧
    (∀ hb, alGet? st.heartbeats id = some hb →
      ((id ∈ (onlinePart nowTs st).map Prod.fst) ↔ nowTs - hb < 300) ∧
      (hb = nowTs - 300 + 1 → id ∈ (onlinePart nowTs st).map Prod.fst) ∧
      (hb = nowTs - 300 - 1 → id ∉ (onlinePart nowTs st).map Prod.fst)) ∧
    (alGet? st.heartbeats id = none → id ∉ (onlinePart nowTs st).map Prod.fst) := by
  refine ⟨by simp [getMt5Data], ?_, ?_⟩
  · intro hb hget
    have hiff := mem_filter_keys_iff st.heartbeats
      (fun q => isOnlineChk nowTs q.2) id hb hnd hget
    have hchk : ((fun q : String × Int => isOnlineChk nowTs q.2) (id, hb) = true) ↔
        nowTs - hb < 300 := by
      simp [isOnlineChk]
    refine ⟨(iff_of_eq (by rfl)).trans (hiff.trans hchk), ?_, ?_⟩
    · intro h
      subst h
      exact (hiff.trans hchk).mpr (by omega)
    · intro h
      subst h
      intro hm
      have := (hiff.trans hchk).mp hm
      omega
  · intro hget
    exact not_mem_filter_keys st.heartbeats _ id ((alGet?_eq_none_iff _ _).mp hget)

/-- Witness for `liveness_strict_boundary` at `nowTs = 1000` on a store
whose heartbeat for `A1` sits exactly one second inside the window. -/
theorem liveness_strict_boundary_witness :
    getMt5Data none 1000 heartbeatFixture =
      (heartbeatFixture, .ok (aggregateView 1000 heartbeatFixture)) ∧
    (∀ hb, alGet? heartbeatFixture.heartbeats "A1" = some hb →
      (("A1" ∈ (onlinePart 1000 heartbeatFixture).map Prod.fst) ↔ 1000 - hb < 300) ∧
      (hb = 1000 - 300 + 1 → "A1" ∈ (onlinePart 1000 heartbeatFixture).map Prod.fst) ∧
      (hb = 1000 - 300 - 1 → "A1" ∉ (onlinePart 1000 heartbeatFixture).map Prod.fst)) ∧
    (alGet? heartbeatFixture.heartbeats "A1" = none →
      "A1" ∉ (onlinePart 1000 heartbeatFixture).map Prod.fst) :=
  liveness_strict_boundary heartbeatFixture 1000 "A1" (by decide)

/-- **C5 counterexample** — a report whose `account` field is the empty
string is *not* rejected: validation only tests key presence
(`"account" not in data`), so the request succeeds and the accounts and
heartbeats stores are both mutated (keyed by `""`), refuting the claim
that an empty account id is rejected with no state mutation.  Likewise
`send_command` accepts an empty `action`. -/
theorem empty_field_not_rejected :
    (∃ st₂ resp,
      receiveMt5Data bodyEmptyAcc "t1" 0 initState = (st₂, .ok resp) ∧
      st₂.accounts = [("", mkAccountRecord bodyEmptyAcc "t1" 0)] ∧
      st₂.heartbeats = [("", 0)] ∧
      initState.accounts.length = 0 ∧ st₂.accounts.length = 1) ∧
    (∃ st₃ resp₃,
      sendCommand [("account", Val.str "A1"), ("action", Val.str "")] "t1" "n1" initState =
        (st₃, .ok resp₃) ∧
      st₃.commands.length = 1) := by
  refine ⟨⟨_, _, rfl, rfl, rfl, rfl, rfl⟩, ⟨_, _, rfl, rfl⟩⟩

/-- **C5 amended** — a request to `receive_mt5_data` whose body lacks
the `account` key, and a request to `send_command` whose body lacks
`account` or `action`, is rejected with an error whose detail names the
missing field, and no store is mutated; the error is surfaced with
status 500 because the handler's catch-all re-wraps its own
`HTTPException(400, ...)`.  (An *empty* value for these fields is not
treated as missing and the operation proceeds normally — see the
counterexample.) -/
theorem missing_field_rejected (b₁ b₂ b₃ : Dict) (st : BridgeState)
    (iso rep : String) (ts : Int) (acc : Val)
    (h₁ : alGet? b₁ "account" = none)
    (h₂ : alGet? b₂ "account" = none)
    (h₃ : alGet? b₃ "account" = some acc) (h₄ : alGet? b₃ "action" = none) :
    receiveMt5Data b₁ iso ts st =
      (st, .error ⟨500, "400: " ++ missingFieldMsg "account"⟩) ∧
    sendCommand b₂ iso rep st =
      (st, .error ⟨500, "400: " ++ missingFieldMsg "account"⟩) ∧
    sendCommand b₃ iso rep st =
      (st, .error ⟨500, "400: " ++ missingFieldMsg "action"⟩) := by
  refine ⟨?_, ?_, ?_⟩
  · simp only [receiveMt5Data, h₁]
    rfl
  · simp only [sendCommand, h₂]
    rfl
  · simp only [sendCommand, h₃, h₄]
    rfl

/-- Witness for `missing_field_rejected` on concrete bodies lacking the
required fields. -/
theorem missing_field_rejected_witness :
    receiveMt5Data bodyNoAcc "t1" 0 initState =
      (initState, .error ⟨500, "400: " ++ missingFieldMsg "account"⟩) ∧
    sendCommand bodyNoAcc "t1" "n1" initState =
      (initState, .error ⟨500, "400: " ++ missingFieldMsg "account"⟩) ∧
    sendCommand cmdBodyNoAction "t1" "n1" initState =
      (initState, .error ⟨500, "400: " ++ missingFieldMsg "action"⟩) :=
  missing_field_rejected bodyNoAcc bodyNoAcc cmdBodyNoAction initState "t1" "n1" 0
    (Val.str "A1") rfl rfl rfl rfl

/-- **C6 counterexample** — two submissions for the same account in the
same clock instant derive the same command id (md5 of the same
account+timestamp string), and `send_command` appends both with no
collision check: the queue then holds two commands with identical ids,
refuting both process-lifetime id uniqueness and regeneration on
collision.  (No command is lost — the list grows to two entries.) -/
theorem command_id_collision_not_regenerated :
    ∃ st₁ st₂ r₁ r₂,
      sendCommand cmdBody "t1" "n1" initState = (st₁, .ok r₁) ∧
      sendCommand cmdBody "t1" "n1" st₁ = (st₂, .ok r₂) ∧
      alGet? r₁ "command_id" = some (.str (cmdIdOf (Val.str "A1") "n1")) ∧
      alGet? r₂ "command_id" = some (.str (cmdIdOf (Val.str "A1") "n1")) ∧
      st₂.commands.length = 2 ∧
      st₂.commands.map (fun c => alGet? c "id") =
        [some (.str (cmdIdOf (Val.str "A1") "n1")),
         some (.str (cmdIdOf (Val.str "A1") "n1"))] := by
  refine ⟨_, _, _, _, rfl, rfl, rfl, rfl, rfl, rfl⟩

/-- **C6 amended** — the command id is a deterministic function of the
account's string form and the clock reading, with no collision check:
`send_command` always appends the newly built command (evicting at most
the oldest entry when over capacity), so colliding submissions store
duplicate ids side by side; no queued command is overwritten or
otherwise corrupted by a collision, and the response always carries the
derived id. -/
theorem enqueue_no_collision_check (body : Dict) (acc act : Val) (iso rep : String)
    (st : BridgeState)
    (hacc : alGet? body "account" = some acc) (hact : alGet? body "action" = some act) :
    ∃ resp cs₂,
      sendCommand body iso rep st = ({ st with commands := cs₂ }, .ok resp) ∧
      (cs₂ = st.commands ++ [mkCommand body (cmdIdOf acc rep) iso] ∨
       cs₂ = (st.commands ++ [mkCommand body (cmdIdOf acc rep) iso]).drop 1) ∧
      alGet? resp "command_id" = some (.str (cmdIdOf acc rep)) ∧
      (∀ acc₂ : Val, pyStr acc₂ = pyStr acc → cmdIdOf acc₂ rep = cmdIdOf acc rep) := by
  by_cases hlen : (st.commands ++ [mkCommand body (cmdIdOf acc rep) iso]).length > 50
  · refine ⟨[("status", .str "queued"), ("command_id", .str (cmdIdOf acc rep)),
      ("message", .str ("Command " ++ quo ++ pyStr act ++ quo ++
        " queued for account " ++ pyStr acc))],
      (st.commands ++ [mkCommand body (cmdIdOf acc rep) iso]).drop 1,
      ?_, .inr rfl, ?_, ?_⟩
    · have hlen₂ : st.commands.length + 1 > 50 := by
        simpa [List.length_append] using hlen
      simp [sendCommand, hacc, hact, hlen]
      intro h
      exact absurd h (by omega)
    · simp [alGet?]
    · intro acc₂ he
      simp [cmdIdOf, he]
  · refine ⟨[("status", .str "queued"), ("command_id", .str (cmdIdOf acc rep)),
      ("message", .str ("Command " ++ quo ++ pyStr act ++ quo ++
        " queued for account " ++ pyStr acc))],
      st.commands ++ [mkCommand body (cmdIdOf acc rep) iso],
      ?_, .inl rfl, ?_, ?_⟩
    · have hlen₂ : ¬(st.commands.length + 1 > 50) := by
        simpa [List.length_append] using hlen
      simp [sendCommand, hacc, hact, hlen]
      intro h
      exact absurd h (by omega)
    · simp [alGet?]
    · intro acc₂ he
      simp [cmdIdOf, he]

/-- Witness for `enqueue_no_collision_check` on an empty store. -/
theorem enqueue_no_collision_check_witness :
    ∃ resp cs₂,
      sendCommand cmdBody "t1" "n1" initState = ({ initState with commands := cs₂ }, .ok resp) ∧
      (cs₂ = initState.commands ++ [mkCommand cmdBody (cmdIdOf (Val.str "A1") "n1") "t1"] ∨
       cs₂ = (initState.commands ++
         [mkCommand cmdBody (cmdIdOf (Val.str "A1") "n1") "t1"]).drop 1) ∧
      alGet? resp "command_id" = some (.str (cmdIdOf (Val.str "A1") "n1")) ∧
      (∀ acc₂ : Val, pyStr acc₂ = pyStr (Val.str "A1") →
        cmdIdOf acc₂ "n1" = cmdIdOf (Val.str "A1") "n1") :=
  enqueue_no_collision_check cmdBody (Val.str "A1") (Val.str "ping") "t1" "n1" initState
    rfl rfl

/-- **C7 counterexample** — a successful report whose payload embeds a
trade sub-object appends *nothing* to the trade log: no code path in the
server ever writes `trading_data["trades"]`, so the claimed
`TradeLog.Append` on trade-carrying payloads does not happen. -/
theorem trade_payload_not_logged :
    ∃ st₂ resp,
      receiveMt5Data bodyTrade "t1" 0 initState = (st₂, .ok resp) ∧
      alGet? bodyTrade "trade" =
        some (.obj [("symbol", .str "EURUSD"), ("volume", .int 1)]) ∧
      st₂.trades = [] ∧
      st₂.trades.length = 0 := by
  refine ⟨_, _, rfl, rfl, rfl, rfl⟩

/-- **C7 amended** — no handler ever modifies the trade log: every
operation preserves `trades` exactly, for any payload (trade sub-object
or not).  Starting from the initial empty store the log therefore stays
empty for the process lifetime, trivially within any `MAX_TRADES`
bound (a constant that never occurs in the source). -/
theorem trades_never_modified (body : Dict) (a iso rep : String) (ts : Int)
    (q : Option String) (st : BridgeState) :
    (receiveMt5Data body iso ts st).1.trades = st.trades ∧
    (sendCommand body iso rep st).1.trades = st.trades ∧
    (getCommands a iso st).1.trades = st.trades ∧
    (getMt5Data q ts st).1.trades = st.trades := by
  refine ⟨?_, ?_, ?_, ?_⟩
  · rcases h : alGet? body "account" with _ | acc <;> simp [receiveMt5Data, h]
  · rcases h₁ : alGet? body "account" with _ | acc
    · simp [sendCommand, h₁]
    · rcases h₂ : alGet? body "action" with _ | act
      · simp [sendCommand, h₁, h₂]
      · simp [sendCommand, h₁, h₂]
  · by_cases ha : a = "" <;> simp [getCommands, ha]
  · rcases q with _ | a
    · simp [getMt5Data]
    · by_cases ha : a = ""
      · simp [getMt5Data, ha]
      · rcases h : alGet? st.accounts a with _ | r <;> simp [getMt5Data, ha, h]

/-- **C8** — evaluation at the failing input: a point query for an
account absent from the store raises
`HTTPException(404, "Account X not found")` inside the handler's `try`,
and the handler's own `except Exception` catch-all re-raises it as
`HTTPException(500, str(e))`, so the caller receives the generic
internal-error status 500 — the detail string still names the
identifier — and no store is mutated. -/
theorem lookup_miss_wrapped_to_500 :
    getMt5Data (some "X") 0 initState =
      (initState, .error ⟨500, "404: Account X not found"⟩) := rfl

/-- **C9** — a body `id` key overrides the generated command id in the
stored command (the `**data` splat comes after `"id": cmd_id` in the
dict literal), while the response's `command_id` is still the generated
hash; whenever the body's value differs from the hash, the returned
`command_id` therefore does not match the stored command's id. -/
theorem body_id_overrides_generated (body : Dict) (acc act v : Val) (iso rep : String)
    (st : BridgeState)
    (hacc : alGet? body "account" = some acc) (hact : alGet? body "action" = some act)
    (hid : alGet? body "id" = some v) (hnd : (body.map Prod.fst).Nodup) :
    ∃ st₂ resp cs₁,
      sendCommand body iso rep st = (st₂, .ok resp) ∧
      st₂.commands = cs₁ ++ [mkCommand body (cmdIdOf acc rep) iso] ∧
      alGet? (mkCommand body (cmdIdOf acc rep) iso) "id" = some v ∧
      alGet? resp "command_id" = some (.str (cmdIdOf acc rep)) ∧
      (v ≠ .str (cmdIdOf acc rep) →
        alGet? (mkCommand body (cmdIdOf acc rep) iso) "id" ≠
          some (.str (cmdIdOf acc rep))) := by
  have hidv : alGet? (mkCommand body (cmdIdOf acc rep) iso) "id" = some v := by
    unfold mkCommand
    rw [alGet?_alSet_ne _ _ _ _ (by decide), alGet?_alSet_ne _ _ _ _ (by decide),
      alGet?_alSet_ne _ _ _ _ (by decide)]
    exact alGet?_alSets_self body _ "id" v hnd hid
  by_cases hlen : (st.commands ++ [mkCommand body (cmdIdOf acc rep) iso]).length > 50
  · have h1 : 1 ≤ st.commands.length := by
      simp [List.length_append] at hlen
      omega
    refine ⟨{ st with commands :=
        (st.commands ++ [mkCommand body (cmdIdOf acc rep) iso]).drop 1 },
      [("status", .str "queued"), ("command_id", .str (cmdIdOf acc rep)),
       ("message", .str ("Command " ++ quo ++ pyStr act ++ quo ++
         " queued for account " ++ pyStr acc))],
      st.commands.drop 1, ?_, ?_, hidv, ?_, ?_⟩
    · simp [sendCommand, hacc, hact, hlen]
      intro h
      exact absurd h (by simp [List.length_append] at hlen; omega)
    · simp only [List.drop_append_of_le_length h1]
    · simp [alGet?]
    · intro hne heq
      rw [hidv] at heq
      exact hne (Option.some.inj heq)
  · refine ⟨{ st with commands := st.commands ++ [mkCommand body (cmdIdOf acc rep) iso] },
      [("status", .str "queued"), ("command_id", .str (cmdIdOf acc rep)),
       ("message", .str ("Command " ++ quo ++ pyStr act ++ quo ++
         " queued for account " ++ pyStr acc))],
      st.commands, ?_, rfl, hidv, ?_, ?_⟩
    · simp [sendCommand, hacc, hact, hlen]
      intro h
      exact absurd h (by simp [List.length_append] at hlen; omega)
    · simp [alGet?]
    · intro hne heq
      rw [hidv] at heq
      exact hne (Option.some.inj heq)

/-- Witness for `body_id_overrides_generated` with a body carrying
`id = "chosen"`. -/
theorem body_id_overrides_generated_witness :
    ∃ st₂ resp cs₁,
      sendCommand cmdBodyWithId "t1" "n1" initState = (st₂, .ok resp) ∧
      st₂.commands = cs₁ ++
        [mkCommand cmdBodyWithId (cmdIdOf (Val.str "A1") "n1") "t1"] ∧
      alGet? (mkCommand cmdBodyWithId (cmdIdOf (Val.str "A1") "n1") "t1") "id" =
        some (Val.str "chosen") ∧
      alGet? resp "command_id" = some (.str (cmdIdOf (Val.str "A1") "n1")) ∧
      (Val.str "chosen" ≠ .str (cmdIdOf (Val.str "A1") "n1") →
        alGet? (mkCommand cmdBodyWithId (cmdIdOf (Val.str "A1") "n1") "t1") "id" ≠
          some (.str (cmdIdOf (Val.str "A1") "n1"))) :=
  body_id_overrides_generated cmdBodyWithId (Val.str "A1") (Val.str "ping")
    (Val.str "chosen") "t1" "n1" initState rfl rfl rfl (by decide)

/-- **C10** — `receive_mt5_data` keys both the accounts and heartbeats
stores by `str(data["account"])`, so two reports whose account values
share a string form (e.g. the number `123` and the string `"123"`)
update the *same* record — the second replaces the first and adds no new
entry — and a point query with the string form finds the record reported
under the non-string form. -/
theorem account_coerced_to_string (b₁ b₂ : Dict) (a₁ a₂ : Val)
    (h₁ : alGet? b₁ "account" = some a₁) (h₂ : alGet? b₂ "account" = some a₂)
    (hsame : pyStr a₂ = pyStr a₁) (hne : pyStr a₁ ≠ "")
    (iso₁ iso₂ : String) (ts₁ ts₂ : Int) (st : BridgeState) :
    ∃ st₁ r₁ st₂ r₂,
      receiveMt5Data b₁ iso₁ ts₁ st = (st₁, .ok r₁) ∧
      getMt5Data (some (pyStr a₁)) ts₁ st₁ =
        (st₁, .ok (mkAccountRecord b₁ iso₁ ts₁)) ∧
      receiveMt5Data b₂ iso₂ ts₂ st₁ = (st₂, .ok r₂) ∧
      alGet? st₂.accounts (pyStr a₁) = some (mkAccountRecord b₂ iso₂ ts₂) ∧
      st₂.accounts.length = st₁.accounts.length := by
  refine ⟨{ st with
      accounts := alSet st.accounts (pyStr a₁) (mkAccountRecord b₁ iso₁ ts₁),
      heartbeats := alSet st.heartbeats (pyStr a₁) ts₁ },
    [("status", .str "success"), ("account", .str (pyStr a₁)),
     ("received_at", .str iso₁), ("message", .str "Data received successfully")],
    { st with
      accounts := alSet (alSet st.accounts (pyStr a₁) (mkAccountRecord b₁ iso₁ ts₁))
        (pyStr a₁) (mkAccountRecord b₂ iso₂ ts₂),
      heartbeats := alSet (alSet st.heartbeats (pyStr a₁) ts₁) (pyStr a₁) ts₂ },
    [("status", .str "success"), ("account", .str (pyStr a₁)),
     ("received_at", .str iso₂), ("message", .str "Data received successfully")],
    ?_, ?_, ?_, ?_, ?_⟩
  · simp [receiveMt5Data, h₁]
  · have hl : alGet? (alSet st.accounts (pyStr a₁) (mkAccountRecord b₁ iso₁ ts₁))
        (pyStr a₁) = some (mkAccountRecord b₁ iso₁ ts₁) := alGet?_alSet_self _ _ _
    simp [getMt5Data, hne, hl]
  · simp [receiveMt5Data, h₂, hsame]
  · exact alGet?_alSet_self _ _ _
  · refine alSet_length_of_mem _ _ _ ?_
    exact List.mem_map_of_mem Prod.fst
      (alGet?_mem _ _ _ (alGet?_alSet_self st.accounts (pyStr a₁)
        (mkAccountRecord b₁ iso₁ ts₁)))

/-- Witness for `account_coerced_to_string`: a report with the numeric
account `123` followed by one with the string account `"123"`. -/
theorem account_coerced_to_string_witness :
    ∃ st₁ r₁ st₂ r₂,
      receiveMt5Data bodyIntAcc "t1" 100 initState = (st₁, .ok r₁) ∧
      getMt5Data (some (pyStr (Val.int 123))) 100 st₁ =
        (st₁, .ok (mkAccountRecord bodyIntAcc "t1" 100)) ∧
      receiveMt5Data bodyStrAcc "t2" 200 st₁ = (st₂, .ok r₂) ∧
      alGet? st₂.accounts (pyStr (Val.int 123)) =
        some (mkAccountRecord bodyStrAcc "t2" 200) ∧
      st₂.accounts.length = st₁.accounts.length :=
  account_coerced_to_string bodyIntAcc bodyStrAcc (Val.int 123) (Val.str "123")
    rfl rfl rfl (by decide) "t1" "t2" 100 200 initState
